import Mathlib

set_option autoImplicit false

/-!
Verification development for the streamlit connection-adapter slice:
`base_connection.py`, `sql_connection.py`, `snowpark_connection.py` and
`redis_session_storage.py`, shallowly embedded in Lean.

Python dictionaries are embedded as association lists (`List (String × String)`)
whose observable behaviour is key lookup; assignment `d[k] = v` overwrites any
previous binding of the key.  Python `set` literals are embedded as the list of
their elements together with an explicitly quantified iteration order, because
CPython's iteration order over a set of strings is hash-seed dependent and not
guaranteed by the source.
-/

/-- A Python `dict` from strings to strings, observed through lookup. -/
abbrev PyDict := List (String × String)

/-- Lookup (`d[k]` / `d.get(k)`): the binding of the key, if any. -/
def dfind : PyDict → String → Option String
  | [], _ => none
  | p :: t, k => if p.1 = k then some p.2 else dfind t k

/-- Python `k in d`. -/
def containsKey : PyDict → String → Bool
  | [], _ => false
  | p :: t, k => p.1 = k || containsKey t k

/-- Drop every binding of a key. -/
def removeKey : PyDict → String → PyDict
  | [], _ => []
  | p :: t, k => if p.1 = k then removeKey t k else p :: removeKey t k

/-- Python `d[k] = v`: bind `k` to `v`, dropping any previous binding. -/
def dictInsert (d : PyDict) (k v : String) : PyDict :=
  (k, v) :: removeKey d k

/-- Python `del d[k]`. -/
def dictDelete (d : PyDict) (k : String) : PyDict :=
  removeKey d k

theorem dfind_eq_none_iff (d : PyDict) (k : String) :
    dfind d k = none ↔ containsKey d k = false := by
  induction d with
  | nil => simp [dfind, containsKey]
  | cons p t ih =>
    by_cases h : p.1 = k <;> simp [dfind, containsKey, h, ih]

theorem dfind_removeKey_self (d : PyDict) (k : String) :
    dfind (removeKey d k) k = none := by
  induction d with
  | nil => rfl
  | cons p t ih =>
    by_cases h : p.1 = k <;> simp [removeKey, dfind, h, ih]

theorem dfind_removeKey_ne (d : PyDict) (k q : String) (h : ¬(q = k)) :
    dfind (removeKey d k) q = dfind d q := by
  induction d with
  | nil => rfl
  | cons p t ih =>
    simp only [removeKey, dfind]
    by_cases hk : p.1 = k
    · rw [if_pos hk]
      have hq : ¬(p.1 = q) := fun hpq => h (hpq.symm.trans hk)
      rw [ih, if_neg hq]
    · rw [if_neg hk]
      simp only [dfind]
      by_cases hq : p.1 = q
      · rw [if_pos hq, if_pos hq]
      · rw [if_neg hq, if_neg hq, ih]

theorem dfind_dictInsert_self (d : PyDict) (k v : String) :
    dfind (dictInsert d k v) k = some v := by
  simp [dfind, dictInsert]

theorem dfind_dictInsert_ne (d : PyDict) (k v q : String) (h : ¬(q = k)) :
    dfind (dictInsert d k v) q = dfind d q := by
  have hk : ¬(k = q) := fun hkq => h hkq.symm
  simp [dfind, dictInsert, hk, dfind_removeKey_ne d k q h]

theorem dfind_dictDelete_self (d : PyDict) (k : String) :
    dfind (dictDelete d k) k = none := by
  simp [dictDelete, dfind_removeKey_self]

theorem dfind_dictDelete_ne (d : PyDict) (k q : String) (h : ¬(q = k)) :
    dfind (dictDelete d k) q = dfind d q := by
  simp [dictDelete, dfind_removeKey_ne d k q h]

/-- The last element of `l` whose key is `q`: the binding that survives when a
Python dict is built by iterating over `l` in order. -/
def lastMatch {α : Type} (key : α → String) : List α → String → Option α
  | [], _ => none
  | x :: t, q =>
    match lastMatch key t q with
    | some y => some y
    | none => if key x = q then some x else none

theorem lastMatch_some {α : Type} (key : α → String) (l : List α) (q : String)
    (y : α) (h : lastMatch key l q = some y) : y ∈ l ∧ key y = q := by
  induction l with
  | nil => cases h
  | cons x t ih =>
    simp only [lastMatch] at h
    cases hlm : lastMatch key t q with
    | some z =>
      rw [hlm] at h
      cases h
      have := ih hlm
      exact ⟨List.mem_cons_of_mem x this.1, this.2⟩
    | none =>
      rw [hlm] at h
      by_cases hk : key x = q
      · rw [if_pos hk] at h
        cases h
        exact ⟨List.mem_cons_self _ _, hk⟩
      · rw [if_neg hk] at h
        cases h

/-- Lookup in a dict built by repeated insertion (a Python dict comprehension,
or a key-by-key replay loop): the last binding in the input wins, and keys not
bound by the input fall through to the initial dict. -/
theorem dfind_foldl_dictInsert {α : Type} (key : α → String) (val : α → String)
    (l : List α) (d : PyDict) (q : String) :
    dfind (l.foldl (fun acc x => dictInsert acc (key x) (val x)) d) q
      = match lastMatch key l q with
        | some x => some (val x)
        | none => dfind d q := by
  induction l generalizing d with
  | nil => rfl
  | cons x t ih =>
    show dfind (t.foldl _ (dictInsert d (key x) (val x))) q = _
    rw [ih]
    simp only [lastMatch]
    cases hlm : lastMatch key t q with
    | some y => rfl
    | none =>
      by_cases hk : key x = q
      · rw [if_pos hk]
        rw [← hk]
        exact dfind_dictInsert_self d (key x) (val x)
      · rw [if_neg hk]
        exact dfind_dictInsert_ne d (key x) (val x) q (fun hq => hk hq.symm)

/-- When the keys of `l` are pairwise distinct, the surviving binding is the
unique one, so last-match lookup coincides with plain association lookup. -/
theorem lastMatch_eq_dfind_of_nodup (l : PyDict) (q : String)
    (hnd : (l.map Prod.fst).Nodup) :
    (lastMatch Prod.fst l q).map Prod.snd = dfind l q := by
  induction l with
  | nil => rfl
  | cons x t ih =>
    have hx : x.1 ∉ t.map Prod.fst := (List.nodup_cons.mp hnd).1
    have hnt : (t.map Prod.fst).Nodup := (List.nodup_cons.mp hnd).2
    simp only [lastMatch, dfind]
    cases hlm : lastMatch Prod.fst t q with
    | some y =>
      have hy := lastMatch_some Prod.fst t q y hlm
      have hk : ¬(x.1 = q) := by
        intro hk
        apply hx
        rw [hk, ← hy.2]
        exact List.mem_map_of_mem Prod.fst hy.1
      show Option.map Prod.snd (some y) = if x.1 = q then some x.2 else dfind t q
      rw [if_neg hk, ← ih hnt, hlm]
    | none =>
      show Option.map Prod.snd (if x.1 = q then some x else none)
          = if x.1 = q then some x.2 else dfind t q
      by_cases hk : x.1 = q
      · rw [if_pos hk, if_pos hk]
        rfl
      · rw [if_neg hk, if_neg hk, ← ih hnt, hlm]

/-- Python `for p in params: if p not in d: raise` — the first element of the
iteration order that is missing from the dict. -/
def firstMissing : List String → PyDict → Option String
  | [], _ => none
  | p :: t, d => if containsKey d p then firstMissing t d else some p

theorem firstMissing_some (params : List String) (d : PyDict) (p : String)
    (h : firstMissing params d = some p) :
    p ∈ params ∧ containsKey d p = false := by
  induction params with
  | nil => cases h
  | cons a t ih =>
    simp only [firstMissing] at h
    by_cases ha : containsKey d a = true
    · rw [if_pos ha] at h
      have := ih h
      exact ⟨List.mem_cons_of_mem a this.1, this.2⟩
    · rw [if_neg ha] at h
      cases h
      exact ⟨List.mem_cons_self _ _, by simpa using ha⟩

theorem firstMissing_eq_none (params : List String) (d : PyDict)
    (h : ∀ p ∈ params, containsKey d p = true) :
    firstMissing params d = none := by
  induction params with
  | nil => rfl
  | cons a t ih =>
    simp only [firstMissing]
    rw [if_pos (h a (List.mem_cons_self a t))]
    exact ih (fun p hp => h p (List.mem_cons_of_mem a hp))

theorem firstMissing_isSome (params : List String) (d : PyDict) (p : String)
    (hp : p ∈ params) (hd : containsKey d p = false) :
    (firstMissing params d).isSome = true := by
  induction params with
  | nil => cases hp
  | cons a t ih =>
    simp only [firstMissing]
    by_cases ha : containsKey d a = true
    · rw [if_pos ha]
      cases hp with
      | head => rw [hd] at ha; cases ha
      | tail _ h => exact ih h
    · rw [if_neg ha]
      rfl

/-- If the sole missing element of the iteration order is `p`, the scan finds
`p` no matter where the order places it. -/
theorem firstMissing_unique (params : List String) (d : PyDict) (p : String)
    (hp : p ∈ params) (hd : containsKey d p = false)
    (hothers : ∀ q ∈ params, ¬(q = p) → containsKey d q = true) :
    firstMissing params d = some p := by
  induction params with
  | nil => cases hp
  | cons a t ih =>
    simp only [firstMissing]
    by_cases hap : a = p
    · rw [hap, if_neg (by simp [hd])]
    · have ha : containsKey d a = true :=
        hothers a (List.mem_cons_self a t) hap
      rw [if_pos ha]
      have hpt : p ∈ t := by
        cases hp with
        | head => exact absurd rfl hap
        | tail _ h => exact h
      exact ih hpt (fun q hq hqp => hothers q (List.mem_cons_of_mem a hq) hqp)

/-! ## BaseConnection (`base_connection.py`)

The state of a `BaseConnection` instance.  `connect` is the subclass hook,
passed explicitly as a function; `connectCalls` logs the argument of every
`connect` invocation so that call counts and passed kwargs are observable. -/

structure BaseConnection (T K : Type) where
  connection_name : String
  kwargs : K
  raw_instance : Option T
  connectCalls : List K

namespace BaseConnection

/-- `__init__`: store the name and kwargs, then call `connect(**kwargs)` once
and store the handle. -/
def init {T K : Type} (connect : K → T) (connection_name : String)
    (kwargs : K) : BaseConnection T K :=
  ⟨connection_name, kwargs, some (connect kwargs), [kwargs]⟩

/-- `reset()`: set `_raw_instance` to `None`. -/
def reset {T K : Type} (c : BaseConnection T K) : BaseConnection T K :=
  ⟨c.connection_name, c.kwargs, none, c.connectCalls⟩

/-- The `_instance` property: reconnect with the stored kwargs if the handle
was invalidated, then return it.  Returns the handle and the updated state. -/
def instanceAccess {T K : Type} (connect : K → T) (c : BaseConnection T K) :
    T × BaseConnection T K :=
  match c.raw_instance with
  | some t => (t, c)
  | none =>
    let t := connect c.kwargs
    (t, ⟨c.connection_name, c.kwargs, some t, c.connectCalls ++ [c.kwargs]⟩)

end BaseConnection

/-- The value found under the `connections` key of the secrets mapping: either
a well-formed nested mapping (an `AttrDict` of per-connection sections) or a
value of any other type. -/
inductive ConnectionsSectionValue where
  | attrDict (entries : List (String × PyDict))
  | otherValue
  deriving DecidableEq

/-- The observable state of the external secrets subsystem: whether a secrets
file exists, and what `secrets_singleton.get("connections")` would return. -/
structure SecretsEnv where
  tomlExists : Bool
  connections : Option ConnectionsSectionValue
  deriving DecidableEq

/-- Lookup of a per-connection section by name (`AttrDict.get(name, \x7b\x7d)`
stands behind the `.getD []` at the use site). -/
def sectionFind : List (String × PyDict) → String → Option PyDict
  | [], _ => none
  | p :: t, name => if p.1 = name then some p.2 else sectionFind t name

/-- `BaseConnection.get_secrets`: resolve the section name (replacing
`"default"` by the subclass's `_default_connection_name`, which raises
`NotImplementedError` when it is `None`), then return the section under that
name, or an empty mapping when the secrets file is missing, the `connections`
value is not an `AttrDict`, or the section has no entry for the name. -/
def get_secrets (defaultName : Option String) (connection_name : String)
    (env : SecretsEnv) : Except String PyDict :=
  match (if connection_name = "default" then defaultName else some connection_name) with
  | none => Except.error "NotImplementedError"
  | some name =>
    match (if env.tomlExists then env.connections else none) with
    | some (ConnectionsSectionValue.attrDict entries) =>
      Except.ok ((sectionFind entries name).getD [])
    | _ => Except.ok []

/-! ## SQL adapter (`sql_connection.py`) -/

namespace SQL

/-- Elements of the Python set literal `_REQUIRED_CONNECTION_PARAMS`.  The
source iterates over the *set*, whose iteration order over strings is
hash-seed dependent; theorems therefore quantify over an arbitrary
permutation of this list as the iteration order. -/
def _REQUIRED_CONNECTION_PARAMS : List String := ["dialect", "username", "host"]

/-- The fields passed to `sqlalchemy.engine.URL.create`. -/
structure SqlUrl where
  drivername : String
  username : Option String
  password : Option String
  host : Option String
  port : Option Int
  database : Option String
  deriving DecidableEq

/-- Outcome of `SQL._connect`'s URL computation: either `make_url` applied to
the `url` secret, or a URL composed from the individual secret fields. -/
inductive ConnectResult where
  | madeUrl (url : String)
  | created (url : SqlUrl)
  deriving DecidableEq

/-- `SQL._connect`, up to the URL handed to `sqlalchemy.create_engine` (the
engine construction itself is external).  `order` is the iteration order of
the `_REQUIRED_CONNECTION_PARAMS` set.  Python's `int(...)` on the `port`
secret is rendered as `String.toInt?` (malformed ports are outside every
claim). -/
def _connect (order : List String) (secrets : PyDict) :
    Except String ConnectResult :=
  if containsKey secrets "url" then
    Except.ok (ConnectResult.madeUrl ((dfind secrets "url").getD ""))
  else
    match firstMissing order secrets with
    | some p => Except.error ("Missing SQL DB connection param: " ++ p)
    | none =>
      let drivername :=
        (dfind secrets "dialect").getD ""
          ++ (match dfind secrets "driver" with
              | some drv => "+" ++ drv
              | none => "")
      Except.ok (ConnectResult.created
        ⟨drivername, dfind secrets "username", dfind secrets "password",
         dfind secrets "host",
         (dfind secrets "port").bind (fun s => s.toInt?),
         dfind secrets "database"⟩)

end SQL

/-! ## Warehouse-session adapter (`snowpark_connection.py`) -/

namespace Snowpark

/-- Elements of the Python set literal `_REQUIRED_CONNECTION_PARAMS`; as for
the SQL adapter, the set's iteration order is quantified in theorems. -/
def _REQUIRED_CONNECTION_PARAMS : List String := ["account", "user"]

/-- The parsed content of `~/.snowsql/config`: whether the file exists and,
when it does, the key-value pairs of its `connections` section as produced by
the external `configparser` (which is outside this slice). -/
structure SnowsqlConfigFile where
  fileExists : Bool
  connections : List (String × String)
  deriving DecidableEq

/-- Whether `pat` is a prefix of the character list. -/
def listStartsWith : List Char → List Char → Bool
  | [], _ => true
  | _ :: _, [] => false
  | p :: ps, c :: cs => p = c && listStartsWith ps cs

/-- Left-to-right removal of non-overlapping occurrences of `pat`; the `skip`
counter consumes the rest of a matched occurrence. -/
def removeAux (pat : List Char) : Nat → List Char → List Char
  | _, [] => []
  | skip + 1, _ :: cs => removeAux pat skip cs
  | 0, c :: cs =>
    if listStartsWith pat (c :: cs) then removeAux pat (pat.length - 1) cs
    else c :: removeAux pat 0 cs

/-- Python `s.replace(pat, "")` for a non-empty pattern: remove every
non-overlapping occurrence of `pat`, scanning left to right.  (Defined by
structural recursion; the core `String.replace` has the same behaviour but is
defined by well-founded recursion, which blocks kernel evaluation.) -/
def pyRemoveAll (s pat : String) : String :=
  ⟨removeAux pat.data 0 s.data⟩

/-- The double-quote character stripped from config values. -/
def quoteChar : Char := Char.ofNat 34

/-- Python `v.strip(quote)`: remove all leading and trailing double quotes. -/
def stripQuotes (s : String) : String :=
  ⟨((s.data.dropWhile (fun c => c = quoteChar)).reverse.dropWhile
      (fun c => c = quoteChar)).reverse⟩

/-- `_load_from_snowsql_config_file`: empty mapping when the file is absent;
otherwise strip the `name` fragment from each key and surrounding quotes from
each value (later entries overwriting earlier ones, as in the source's dict
comprehension), then rename `db` to `database`. -/
def _load_from_snowsql_config_file (file : SnowsqlConfigFile) : PyDict :=
  if file.fileExists = false then []
  else
    let conn_params := file.connections.foldl
      (fun acc kv => dictInsert acc (pyRemoveAll kv.1 "name") (stripQuotes kv.2)) []
    if containsKey conn_params "db" then
      dictDelete
        (dictInsert conn_params "database" ((dfind conn_params "db").getD ""))
        "db"
    else conn_params

/-- `Snowpark._connect`, up to the parameters handed to
`Session.builder.configs(...)` (the session construction is external).
`order` is the iteration order of the `_REQUIRED_CONNECTION_PARAMS` set. -/
def _connect (order : List String) (secrets_dict : PyDict)
    (file : SnowsqlConfigFile) : Except String PyDict :=
  let conn_params :=
    if secrets_dict.isEmpty then _load_from_snowsql_config_file file
    else secrets_dict
  match firstMissing order conn_params with
  | some p => Except.error ("Missing Snowpark connection param: " ++ p)
  | none => Except.ok conn_params

end Snowpark

/-! ## Session storage backend (`redis_session_storage.py`)

`AppSession`, `SessionInfo`, `SessionData` and the session-state object live
outside this slice; the structures below are modelled from the spec's data
model (§3, §4.4). -/

/-- `SessionData`: the script path and command line of a session. -/
structure SessionData where
  main_script_path : String
  command_line : String
  deriving DecidableEq

/-- Modelled from the spec: the in-memory application-session object
(`AppSession`, outside this slice) — an identifier, its session data, opaque
user-identity info, and a live session-state mapping. -/
structure AppSession where
  id : String
  session_data : SessionData
  user_info : String
  session_state : PyDict
  deriving DecidableEq

/-- Modelled from the spec: constructing a *new* `AppSession` (the constructor
is outside this slice).  `freshId` is the identifier the new object receives
at construction and `defaultState` whatever session-state a fresh session
starts with; both are parameters of the model. -/
def AppSession.new (session_data : SessionData) (user_info : String)
    (freshId : String) (defaultState : PyDict) : AppSession :=
  ⟨freshId, session_data, user_info, defaultState⟩

/-- Modelled from the spec: `SessionState.filtered_state`, "the full
user-visible session-state mapping" of a session. -/
def filtered_state (s : PyDict) : PyDict := s

/-- Modelled from the spec: a `SessionInfo` record (the `client` field, always
reconstructed as `None` by this storage, is omitted). -/
structure SessionInfo where
  session : AppSession
  script_run_count : Nat
  deriving DecidableEq

/-- The payload pickled by `_serialize_session`.  `pickle.dumps`/`pickle.loads`
form a faithful inverse pair, so the byte blob is identified with the record
itself. -/
structure SerializedSession where
  session_id : String
  main_script_path : String
  command_line : String
  script_run_count : Nat
  user_info : String
  user_session_state : PyDict
  deriving DecidableEq

/-- The remote key-value store, observed through lookup of the latest `SET`.
(The 1-hour expiry attached by `save` is a real-time property outside the
embedding.) -/
abbrev RedisStore := List (String × SerializedSession)

def storeFind : RedisStore → String → Option SerializedSession
  | [], _ => none
  | p :: t, k => if p.1 = k then some p.2 else storeFind t k

def storeSet (s : RedisStore) (k : String) (v : SerializedSession) :
    RedisStore :=
  (k, v) :: s

def storeDelete : RedisStore → String → RedisStore
  | [], _ => []
  | p :: t, k => if p.1 = k then storeDelete t k else p :: storeDelete t k

/-- The storage backend's state: the remote store plus the two collaborator
slots that start out `None` and are injected via setters. -/
structure RedisSessionStorage where
  store : RedisStore
  uploaded_file_manager : Option Unit
  message_enqueued_callback : Option Unit
  deriving DecidableEq

namespace RedisSessionStorage

/-- `__init__`: fresh client, no collaborators injected yet. -/
def init : RedisSessionStorage := ⟨[], none, none⟩

def set_uploaded_file_manager (st : RedisSessionStorage) (m : Unit) :
    RedisSessionStorage :=
  ⟨st.store, some m, st.message_enqueued_callback⟩

def set_message_enqueued_callback (st : RedisSessionStorage) (cb : Unit) :
    RedisSessionStorage :=
  ⟨st.store, st.uploaded_file_manager, some cb⟩

def _session_redis_key (installation_id session_id : String) : String :=
  "session_info-" ++ installation_id ++ "-" ++ session_id

def _serialize_session (si : SessionInfo) : SerializedSession :=
  ⟨si.session.id, si.session.session_data.main_script_path,
   si.session.session_data.command_line, si.script_run_count,
   si.session.user_info, filtered_state si.session.session_state⟩

/-- `_deserialize_session`: assert both collaborators are injected (a failed
`assert` is the `Except.error` branch), build a new session from the persisted
data, patch its id to the persisted one, and replay each persisted state entry
into its live state one key at a time. -/
def _deserialize_session (st : RedisSessionStorage) (freshId : String)
    (defaultState : PyDict) (b : SerializedSession) :
    Except String SessionInfo :=
  let session_data : SessionData := ⟨b.main_script_path, b.command_line⟩
  if st.uploaded_file_manager = none then Except.error "AssertionError"
  else if st.message_enqueued_callback = none then Except.error "AssertionError"
  else
    let session := AppSession.new session_data b.user_info freshId defaultState
    let session : AppSession :=
      ⟨b.session_id, session.session_data, session.user_info,
       b.user_session_state.foldl (fun acc kv => dictInsert acc kv.1 kv.2)
         session.session_state⟩
    Except.ok ⟨session, b.script_run_count⟩

def get (st : RedisSessionStorage) (installation_id freshId : String)
    (defaultState : PyDict) (session_id : String) :
    Except String (Option SessionInfo) :=
  match storeFind st.store (_session_redis_key installation_id session_id) with
  | none => Except.ok none
  | some b => (_deserialize_session st freshId defaultState b).map some

def save (st : RedisSessionStorage) (installation_id : String)
    (si : SessionInfo) : RedisSessionStorage :=
  ⟨storeSet st.store (_session_redis_key installation_id si.session.id)
      (_serialize_session si),
   st.uploaded_file_manager, st.message_enqueued_callback⟩

def delete (st : RedisSessionStorage) (installation_id session_id : String) :
    RedisSessionStorage :=
  ⟨storeDelete st.store (_session_redis_key installation_id session_id),
   st.uploaded_file_manager, st.message_enqueued_callback⟩

end RedisSessionStorage

/-! ## The query retry wrapper -/

/-- Observable trace of one `query(...)` call through the retry wrapper:
its final outcome, the number of execution attempts made, and the number of
times the adapter's `reset()` was invoked by the `after` hook. -/
structure RetryTrace (E A : Type) where
  result : Except E A
  attempts : Nat
  resets : Nat

/-- Modelled from the spec: the external retry decorator (`tenacity.retry`
with `stop=stop_after_attempt(n)`, `reraise=True`, `wait=wait_fixed(1)`, and
an `after` hook that calls `self.reset()`), which is outside this slice.  Per
the spec's contract (§4.2, §6, §7, §8) the `after` hook runs after every
failed attempt — including the final one — and after the final failed attempt
the final exception is re-raised unchanged.  `outcomes n` is the result of the
`n`-th execution of the wrapped function; `fuel` counts the retries still
allowed. -/
def retryGo {E A : Type} (outcomes : Nat → Except E A) :
    Nat → Nat → Nat → RetryTrace E A
  | 0, attemptNo, resets =>
    (match outcomes attemptNo with
     | Except.ok a => ⟨Except.ok a, attemptNo, resets⟩
     | Except.error e => ⟨Except.error e, attemptNo, resets + 1⟩)
  | fuel + 1, attemptNo, resets =>
    (match outcomes attemptNo with
     | Except.ok a => ⟨Except.ok a, attemptNo, resets⟩
     | Except.error _ => retryGo outcomes fuel (attemptNo + 1) (resets + 1))

/-- A `query` call through `@retry(stop=stop_after_attempt(maxAttempts))`. -/
def tenacityRetry {E A : Type} (outcomes : Nat → Except E A)
    (maxAttempts : Nat) : RetryTrace E A :=
  retryGo outcomes (maxAttempts - 1) 1 0

/-- The `stop_after_attempt` bound used by `SQL.query`. -/
def SQL.queryMaxAttempts : Nat := 3

/-- `SQL.query`'s pass through the retry wrapper, the underlying
`pd.read_sql` execution abstracted as `outcomes`. -/
def SQL.queryRun {E A : Type} (outcomes : Nat → Except E A) : RetryTrace E A :=
  tenacityRetry outcomes SQL.queryMaxAttempts

/-- The `stop_after_attempt` bound used by `Snowpark.query`. -/
def Snowpark.queryMaxAttempts : Nat := 3

/-- `Snowpark.query`'s pass through the retry wrapper. -/
def Snowpark.queryRun {E A : Type} (outcomes : Nat → Except E A) :
    RetryTrace E A :=
  tenacityRetry outcomes Snowpark.queryMaxAttempts

/-! ## Claim theorems -/

/-- C1: for both adapters (SQL and Warehouse-session), when the underlying
query execution raises on every attempt, `query` makes exactly 3 execution
attempts, invokes the adapter's `reset` exactly 3 times (once after each
failed attempt, including the final one), and the exception surfaced to the
caller is the final attempt's exception, re-raised unchanged. -/
theorem query_retry_exhaustion {E A : Type} (outcomes : Nat → Except E A)
    (hfail : ∀ n, ∃ e, outcomes n = Except.error e) :
    ∃ e, outcomes 3 = Except.error e
      ∧ SQL.queryRun outcomes = ⟨Except.error e, 3, 3⟩
      ∧ Snowpark.queryRun outcomes = ⟨Except.error e, 3, 3⟩ := by
  obtain ⟨e1, h1⟩ := hfail 1
  obtain ⟨e2, h2⟩ := hfail 2
  obtain ⟨e3, h3⟩ := hfail 3
  refine ⟨e3, h3, ?_, ?_⟩ <;>
    simp [SQL.queryRun, Snowpark.queryRun, SQL.queryMaxAttempts,
      Snowpark.queryMaxAttempts, tenacityRetry, retryGo, h1, h2, h3]

/-- Witness for C1: a concrete execution that fails on every attempt. -/
theorem query_retry_exhaustion_witness :
    ∃ e, (fun n => (Except.error n : Except Nat Unit)) 3 = Except.error e
      ∧ SQL.queryRun (fun n => (Except.error n : Except Nat Unit))
          = ⟨Except.error e, 3, 3⟩
      ∧ Snowpark.queryRun (fun n => (Except.error n : Except Nat Unit))
          = ⟨Except.error e, 3, 3⟩ :=
  query_retry_exhaustion (fun n => Except.error n) (fun n => ⟨n, rfl⟩)

/-- C5: after `reset()`, the next `_instance` access makes exactly one fresh
`connect` call with the stored construction kwargs, stores the returned
handle, and returns it; a further access without an intervening reset makes
no additional `connect` call.  The `init` conjuncts record that construction
stores exactly the construction kwargs (after one initial `connect` call),
and that `reset` and `_instance` never change the stored kwargs. -/
theorem reset_then_instance_connects_once {T K : Type} (connect : K → T)
    (c : BaseConnection T K) (connection_name : String) (kwargs : K) :
    (BaseConnection.instanceAccess connect (BaseConnection.reset c)).2.connectCalls
        = c.connectCalls ++ [c.kwargs]
      ∧ (BaseConnection.instanceAccess connect (BaseConnection.reset c)).1
          = connect c.kwargs
      ∧ (BaseConnection.instanceAccess connect
            (BaseConnection.reset c)).2.raw_instance
          = some (connect c.kwargs)
      ∧ BaseConnection.instanceAccess connect
            (BaseConnection.instanceAccess connect (BaseConnection.reset c)).2
          = ((BaseConnection.instanceAccess connect (BaseConnection.reset c)).1,
             (BaseConnection.instanceAccess connect (BaseConnection.reset c)).2)
      ∧ (BaseConnection.init connect connection_name kwargs).kwargs = kwargs
      ∧ (BaseConnection.init connect connection_name kwargs).connectCalls
          = [kwargs]
      ∧ (BaseConnection.reset c).kwargs = c.kwargs
      ∧ (BaseConnection.instanceAccess connect c).2.kwargs = c.kwargs := by
  refine ⟨rfl, rfl, rfl, rfl, rfl, rfl, rfl, ?_⟩
  cases c with
  | mk n kw ri calls => cases ri <;> rfl

/-- C10: with `_default_connection_name` left undeclared (`None`),
`get_secrets` on an instance named "default" raises `NotImplementedError` for
every secrets environment — the default-name resolution happens before any
secrets lookup — while an instance with any other name still gets a mapping
back without raising. -/
theorem get_secrets_default_name_unset (env : SecretsEnv)
    (connection_name : String) :
    get_secrets none "default" env = Except.error "NotImplementedError"
      ∧ (¬(connection_name = "default") →
          ∃ s, get_secrets none connection_name env = Except.ok s) := by
  constructor
  · rfl
  · intro h
    simp only [get_secrets, if_neg h]
    cases hs : (if env.tomlExists then env.connections else none) with
    | none => exact ⟨[], rfl⟩
    | some v =>
      cases v with
      | attrDict entries => exact ⟨_, rfl⟩
      | otherValue => exact ⟨[], rfl⟩

/-- Witness for C10 at a concrete environment and the name "sql". -/
theorem get_secrets_default_name_unset_witness :
    get_secrets none "default" ⟨true, none⟩ = Except.error "NotImplementedError"
      ∧ ∃ s, get_secrets none "sql" ⟨true, none⟩ = Except.ok s :=
  ⟨(get_secrets_default_name_unset ⟨true, none⟩ "sql").1,
   (get_secrets_default_name_unset ⟨true, none⟩ "sql").2 (by decide)⟩

/-- C9: deserializing a blob (and hence `get` on an existing key) with either
collaborator still uninjected aborts with the assertion failure instead of
returning a session; with both collaborators injected the assertion branch is
unreachable and a session is produced. -/
theorem deserialize_collaborator_precondition (st : RedisSessionStorage)
    (freshId : String) (defaultState : PyDict) (b : SerializedSession) :
    (st.uploaded_file_manager = none ∨ st.message_enqueued_callback = none →
        RedisSessionStorage._deserialize_session st freshId defaultState b
          = Except.error "AssertionError")
      ∧ (st.uploaded_file_manager ≠ none →
         st.message_enqueued_callback ≠ none →
          ∃ si, RedisSessionStorage._deserialize_session st freshId defaultState b
            = Except.ok si)
      ∧ (∀ installation_id session_id,
          storeFind st.store
              (RedisSessionStorage._session_redis_key installation_id session_id)
            = some b →
          (st.uploaded_file_manager = none
              ∨ st.message_enqueued_callback = none) →
          RedisSessionStorage.get st installation_id freshId defaultState
              session_id
            = Except.error "AssertionError") := by
  have herr : st.uploaded_file_manager = none
      ∨ st.message_enqueued_callback = none →
      RedisSessionStorage._deserialize_session st freshId defaultState b
        = Except.error "AssertionError" := by
    intro h
    cases h with
    | inl h =>
      simp only [RedisSessionStorage._deserialize_session, if_pos h]
    | inr h =>
      simp only [RedisSessionStorage._deserialize_session]
      by_cases hu : st.uploaded_file_manager = none
      · rw [if_pos hu]
      · rw [if_neg hu, if_pos h]
  refine ⟨herr, ?_, ?_⟩
  · intro hu hm
    simp only [RedisSessionStorage._deserialize_session, if_neg hu, if_neg hm]
    exact ⟨_, rfl⟩
  · intro installation_id session_id hfound h
    simp only [RedisSessionStorage.get, hfound, herr h, Except.map]

/-- Witness for C9: a fresh storage aborts; one with both setters called
succeeds. -/
theorem deserialize_collaborator_precondition_witness :
    RedisSessionStorage._deserialize_session RedisSessionStorage.init "s" []
        ⟨"id", "p", "c", 0, "u", []⟩ = Except.error "AssertionError"
      ∧ ∃ si, RedisSessionStorage._deserialize_session
          ((RedisSessionStorage.init.set_uploaded_file_manager
              ()).set_message_enqueued_callback ())
          "s" [] ⟨"id", "p", "c", 0, "u", []⟩ = Except.ok si :=
  ⟨(deserialize_collaborator_precondition RedisSessionStorage.init "s" []
      ⟨"id", "p", "c", 0, "u", []⟩).1 (Or.inl rfl),
   (deserialize_collaborator_precondition
      ((RedisSessionStorage.init.set_uploaded_file_manager
          ()).set_message_enqueued_callback ())
      "s" [] ⟨"id", "p", "c", 0, "u", []⟩).2.1 (by decide) (by decide)⟩

/-- C3 counterexample: `["host", "username", "dialect"]` is a legitimate
iteration order of the `_REQUIRED_CONNECTION_PARAMS` set (CPython fixes no
order), and with no `url` secret and all three required fields missing —
`dialect` among them — the error names `host`, not the claim's first-in-order
field `dialect`. -/
theorem sql_connect_error_not_in_claimed_order :
    List.Perm ["host", "username", "dialect"] SQL._REQUIRED_CONNECTION_PARAMS
      ∧ containsKey [] "url" = false
      ∧ containsKey [] "dialect" = false
      ∧ SQL._connect ["host", "username", "dialect"] []
          = Except.error ("Missing SQL DB connection param: " ++ "host")
      ∧ ¬(("Missing SQL DB connection param: " ++ "host")
            = ("Missing SQL DB connection param: " ++ "dialect")) := by
  exact ⟨by decide, rfl, rfl, rfl, by decide⟩

/-- C3 (amended): whenever the secrets mapping has no `url` key and at least
one required field (`dialect`, `username`, `host`) is absent, `SQL._connect`
raises a configuration error naming a missing required field — which one
depends on the set's iteration order; when `host` is the only missing
required field the message names `host`, whatever the iteration order. -/
theorem sql_connect_missing_param_error (order : List String)
    (hperm : List.Perm order SQL._REQUIRED_CONNECTION_PARAMS)
    (secrets : PyDict) (hurl : containsKey secrets "url" = false) :
    ((∃ p, p ∈ SQL._REQUIRED_CONNECTION_PARAMS
          ∧ containsKey secrets p = false) →
        ∃ p, p ∈ SQL._REQUIRED_CONNECTION_PARAMS
          ∧ containsKey secrets p = false
          ∧ SQL._connect order secrets
              = Except.error ("Missing SQL DB connection param: " ++ p))
      ∧ (containsKey secrets "dialect" = true →
         containsKey secrets "username" = true →
         containsKey secrets "host" = false →
          SQL._connect order secrets
            = Except.error ("Missing SQL DB connection param: " ++ "host")) := by
  constructor
  · rintro ⟨p, hp, hmiss⟩
    have hpo : p ∈ order := hperm.mem_iff.mpr hp
    have hsome := firstMissing_isSome order secrets p hpo hmiss
    cases hfm : firstMissing order secrets with
    | none => rw [hfm] at hsome; cases hsome
    | some q =>
      have hq := firstMissing_some order secrets q hfm
      refine ⟨q, hperm.mem_iff.mp hq.1, hq.2, ?_⟩
      simp [SQL._connect, hurl, hfm]
  · intro hd hu hh
    have hfm : firstMissing order secrets = some "host" := by
      apply firstMissing_unique order secrets "host"
      · exact hperm.mem_iff.mpr (by simp [SQL._REQUIRED_CONNECTION_PARAMS])
      · exact hh
      · intro q hq hqh
        have hqr : q ∈ SQL._REQUIRED_CONNECTION_PARAMS := hperm.mem_iff.mp hq
        simp only [SQL._REQUIRED_CONNECTION_PARAMS, List.mem_cons,
          List.not_mem_nil, or_false] at hqr
        rcases hqr with h1 | h1 | h1
        · rw [h1]; exact hd
        · rw [h1]; exact hu
        · exact absurd h1 hqh
    simp [SQL._connect, hurl, hfm]

/-- Witness for the amended C3: concrete secrets with only `host` missing. -/
theorem sql_connect_missing_param_error_witness :
    SQL._connect ["dialect", "username", "host"]
        [("dialect", "postgresql"), ("username", "u")]
      = Except.error ("Missing SQL DB connection param: " ++ "host") :=
  (sql_connect_missing_param_error ["dialect", "username", "host"] (by decide)
      [("dialect", "postgresql"), ("username", "u")] (by decide)).2
    (by decide) (by decide) (by decide)

/-- C6 counterexample: `["user", "account"]` is a legitimate iteration order
of the Warehouse adapter's `_REQUIRED_CONNECTION_PARAMS` set, and with empty
secrets and no legacy config file the error then names `user`, not
`account`. -/
theorem snowpark_connect_error_can_name_user :
    List.Perm ["user", "account"] Snowpark._REQUIRED_CONNECTION_PARAMS
      ∧ Snowpark._connect ["user", "account"] [] ⟨false, []⟩
          = Except.error ("Missing Snowpark connection param: " ++ "user")
      ∧ ¬(("Missing Snowpark connection param: " ++ "user")
            = ("Missing Snowpark connection param: " ++ "account")) := by
  exact ⟨by decide, rfl, by decide⟩

/-- C6 (amended): with empty secrets and no legacy config file present,
`Snowpark._connect` raises a configuration error naming one of the missing
required fields `account`, `user` — whichever the set's iteration order
yields first. -/
theorem snowpark_connect_empty_secrets_error (order : List String)
    (hperm : List.Perm order Snowpark._REQUIRED_CONNECTION_PARAMS)
    (file : Snowpark.SnowsqlConfigFile) (hfile : file.fileExists = false) :
    ∃ p, p ∈ Snowpark._REQUIRED_CONNECTION_PARAMS
      ∧ Snowpark._connect order [] file
          = Except.error ("Missing Snowpark connection param: " ++ p) := by
  have hload : Snowpark._load_from_snowsql_config_file file = [] := by
    simp [Snowpark._load_from_snowsql_config_file, hfile]
  have hlen : order.length = 2 := by
    have := hperm.length_eq
    simpa [Snowpark._REQUIRED_CONNECTION_PARAMS] using this
  cases order with
  | nil => simp at hlen
  | cons a t =>
    refine ⟨a, hperm.mem_iff.mp (List.mem_cons_self _ _), ?_⟩
    simp [Snowpark._connect, hload, firstMissing, containsKey]

/-- Witness for the amended C6 at the order `["account", "user"]`. -/
theorem snowpark_connect_empty_secrets_error_witness :
    ∃ p, p ∈ Snowpark._REQUIRED_CONNECTION_PARAMS
      ∧ Snowpark._connect ["account", "user"] [] ⟨false, []⟩
          = Except.error ("Missing Snowpark connection param: " ++ p) :=
  snowpark_connect_empty_secrets_error ["account", "user"] (by decide)
    ⟨false, []⟩ rfl

/-- C8: composing the URL from secrets `dialect = "postgresql"`,
`username = "u"`, `host = "h"` (no `url` key) yields drivername
`"postgresql"` with no `+driver` suffix and no port; adding
`driver = "psycopg2"` yields drivername `"postgresql+psycopg2"` — for every
iteration order of the required-params set. -/
theorem sql_connect_url_composition (order : List String)
    (hperm : List.Perm order SQL._REQUIRED_CONNECTION_PARAMS) :
    SQL._connect order
        [("dialect", "postgresql"), ("username", "u"), ("host", "h")]
        = Except.ok (SQL.ConnectResult.created
            ⟨"postgresql", some "u", none, some "h", none, none⟩)
      ∧ SQL._connect order
          [("dialect", "postgresql"), ("username", "u"), ("host", "h"),
           ("driver", "psycopg2")]
        = Except.ok (SQL.ConnectResult.created
            ⟨"postgresql+psycopg2", some "u", none, some "h", none, none⟩) := by
  have hmem : ∀ p ∈ order, p ∈ SQL._REQUIRED_CONNECTION_PARAMS :=
    fun p hp => hperm.mem_iff.mp hp
  constructor
  · have hfm : firstMissing order
        [("dialect", "postgresql"), ("username", "u"), ("host", "h")] = none := by
      apply firstMissing_eq_none
      intro p hp
      have hpr := hmem p hp
      simp only [SQL._REQUIRED_CONNECTION_PARAMS, List.mem_cons,
        List.not_mem_nil, or_false] at hpr
      rcases hpr with h | h | h <;> rw [h] <;> decide
    have hurl : containsKey
        [("dialect", "postgresql"), ("username", "u"), ("host", "h")] "url"
          = false := by decide
    simp only [SQL._connect, hurl, Bool.false_eq_true, if_false, hfm]
    exact congrArg Except.ok (congrArg SQL.ConnectResult.created (by decide))
  · have hfm : firstMissing order
        [("dialect", "postgresql"), ("username", "u"), ("host", "h"),
         ("driver", "psycopg2")] = none := by
      apply firstMissing_eq_none
      intro p hp
      have hpr := hmem p hp
      simp only [SQL._REQUIRED_CONNECTION_PARAMS, List.mem_cons,
        List.not_mem_nil, or_false] at hpr
      rcases hpr with h | h | h <;> rw [h] <;> decide
    have hurl : containsKey
        [("dialect", "postgresql"), ("username", "u"), ("host", "h"),
         ("driver", "psycopg2")] "url" = false := by decide
    simp only [SQL._connect, hurl, Bool.false_eq_true, if_false, hfm]
    exact congrArg Except.ok (congrArg SQL.ConnectResult.created (by decide))

/-- Witness for C8 at the iteration order `["dialect", "username", "host"]`. -/
theorem sql_connect_url_composition_witness :
    SQL._connect ["dialect", "username", "host"]
        [("dialect", "postgresql"), ("username", "u"), ("host", "h")]
        = Except.ok (SQL.ConnectResult.created
            ⟨"postgresql", some "u", none, some "h", none, none⟩)
      ∧ SQL._connect ["dialect", "username", "host"]
          [("dialect", "postgresql"), ("username", "u"), ("host", "h"),
           ("driver", "psycopg2")]
        = Except.ok (SQL.ConnectResult.created
            ⟨"postgresql+psycopg2", some "u", none, some "h", none, none⟩) :=
  sql_connect_url_composition ["dialect", "username", "host"] (by decide)

/-- With pairwise distinct mapped keys, the last match at `key x` is `x`
itself. -/
theorem lastMatch_eq_of_nodup {α : Type} (key : α → String) (l : List α)
    (hnd : (l.map key).Nodup) (x : α) (hx : x ∈ l) :
    lastMatch key l (key x) = some x := by
  induction l with
  | nil => cases hx
  | cons a t ih =>
    have ha : key a ∉ t.map key := (List.nodup_cons.mp hnd).1
    have hnt : (t.map key).Nodup := (List.nodup_cons.mp hnd).2
    simp only [lastMatch]
    cases hx with
    | head =>
      cases hlm : lastMatch key t (key x) with
      | some y =>
        have hy := lastMatch_some key t (key x) y hlm
        have : key x ∈ t.map key := by
          rw [← hy.2]
          exact List.mem_map_of_mem key hy.1
        exact absurd this ha
      | none => rw [if_pos rfl]
    | tail _ hxt =>
      rw [ih hnt hxt]

/-- C4: the legacy snowsql config loader returns an empty mapping when the
config file is absent; when it is present (and the stripped keys of the
`connections` section are pairwise distinct), every entry `(k, v)` of the
section is exposed under the key `k` with its `name` fragment removed and
with surrounding quotes stripped from `v`, except that the key `db` is
renamed to `database` and never survives as `db` itself. -/
theorem snowsql_config_loader_spec (cs : List (String × String))
    (file : Snowpark.SnowsqlConfigFile) (hex : file.fileExists = true)
    (hnd : (file.connections.map (fun kv => Snowpark.pyRemoveAll kv.1 "name")).Nodup) :
    Snowpark._load_from_snowsql_config_file ⟨false, cs⟩ = []
      ∧ containsKey (Snowpark._load_from_snowsql_config_file file) "db" = false
      ∧ ∀ k v, (k, v) ∈ file.connections →
          ((¬(Snowpark.pyRemoveAll k "name" = "db") →
            ¬(Snowpark.pyRemoveAll k "name" = "database") →
              dfind (Snowpark._load_from_snowsql_config_file file)
                  (Snowpark.pyRemoveAll k "name") = some (Snowpark.stripQuotes v))
            ∧ (Snowpark.pyRemoveAll k "name" = "db" →
              dfind (Snowpark._load_from_snowsql_config_file file) "database"
                  = some (Snowpark.stripQuotes v))) := by
  set cp : PyDict := file.connections.foldl
      (fun acc kv => dictInsert acc (Snowpark.pyRemoveAll kv.1 "name")
        (Snowpark.stripQuotes kv.2)) [] with hcpdef
  have hres : Snowpark._load_from_snowsql_config_file file
      = (if containsKey cp "db"
         then dictDelete (dictInsert cp "database" ((dfind cp "db").getD ""))
           "db"
         else cp) := by
    rw [hcpdef]
    simp [Snowpark._load_from_snowsql_config_file, hex]
  have hA : ∀ k v, (k, v) ∈ file.connections →
      dfind cp (Snowpark.pyRemoveAll k "name") = some (Snowpark.stripQuotes v) := by
    intro k v hmem
    have hlm : lastMatch (fun kv : String × String => Snowpark.pyRemoveAll kv.1 "name")
        file.connections (Snowpark.pyRemoveAll k "name") = some (k, v) :=
      lastMatch_eq_of_nodup
        (fun kv : String × String => Snowpark.pyRemoveAll kv.1 "name")
        file.connections hnd (k, v) hmem
    rw [hcpdef, dfind_foldl_dictInsert
        (fun kv : String × String => Snowpark.pyRemoveAll kv.1 "name")
        (fun kv : String × String => Snowpark.stripQuotes kv.2)
        file.connections [] (Snowpark.pyRemoveAll k "name"), hlm]
  refine ⟨rfl, ?_, ?_⟩
  · rw [hres]
    by_cases hdb : containsKey cp "db" = true
    · rw [if_pos hdb]
      have := dfind_dictDelete_self
          (dictInsert cp "database" ((dfind cp "db").getD "")) "db"
      rw [dfind_eq_none_iff] at this
      exact this
    · rw [if_neg hdb]
      simpa using hdb
  · intro k v hmem
    constructor
    · intro hkdb hkdatabase
      rw [hres]
      by_cases hdb : containsKey cp "db" = true
      · rw [if_pos hdb,
          dfind_dictDelete_ne _ "db" (Snowpark.pyRemoveAll k "name") hkdb,
          dfind_dictInsert_ne _ "database" _ (Snowpark.pyRemoveAll k "name") hkdatabase]
        exact hA k v hmem
      · rw [if_neg hdb]
        exact hA k v hmem
    · intro hkdb
      have hdfind : dfind cp "db" = some (Snowpark.stripQuotes v) := by
        rw [← hkdb]
        exact hA k v hmem
      have hdb : containsKey cp "db" = true := by
        cases hc : containsKey cp "db" with
        | false =>
          rw [← dfind_eq_none_iff, hdfind] at hc
          cases hc
        | true => rfl
      rw [hres, if_pos hdb,
        dfind_dictDelete_ne _ "db" "database" (by decide),
        dfind_dictInsert_self, hdfind]
      rfl

/-- Witness for C4: a concrete config file exercising the `name`-stripping,
quote-stripping and `db` renaming. -/
theorem snowsql_config_loader_spec_witness :
    Snowpark._load_from_snowsql_config_file ⟨false, [("a", "b")]⟩ = []
      ∧ dfind (Snowpark._load_from_snowsql_config_file
            ⟨true, [("accountname", "\"acct\""), ("db", "mydb")]⟩) "account"
          = some "acct"
      ∧ dfind (Snowpark._load_from_snowsql_config_file
            ⟨true, [("accountname", "\"acct\""), ("db", "mydb")]⟩) "database"
          = some "mydb"
      ∧ containsKey (Snowpark._load_from_snowsql_config_file
            ⟨true, [("accountname", "\"acct\""), ("db", "mydb")]⟩) "db"
          = false := by
  have h := snowsql_config_loader_spec [("a", "b")]
      ⟨true, [("accountname", "\"acct\""), ("db", "mydb")]⟩ rfl (by decide)
  refine ⟨h.1, ?_, ?_, h.2.1⟩
  · have h2 := (h.2.2 "accountname" "\"acct\"" (by decide)).1
        (by decide) (by decide)
    have e1 : Snowpark.pyRemoveAll "accountname" "name" = "account" := by decide
    have e2 : Snowpark.stripQuotes "\"acct\"" = "acct" := by decide
    rw [e1, e2] at h2
    exact h2
  · have h2 := (h.2.2 "db" "mydb" (by decide)).2 (by decide)
    have e2 : Snowpark.stripQuotes "mydb" = "mydb" := by decide
    rw [e2] at h2
    exact h2

/-- C7: under a resolvable section name (a non-"default" connection name, or
a registered default section name), `get_secrets` never raises, and returns
an empty mapping whenever the secrets file does not exist, the `connections`
value is absent or not a well-formed nested mapping, or the section lacks an
entry for the resolved name; an instance named "default" is looked up under
the subclass's registered default name. -/
theorem get_secrets_missing_sections_empty (defaultName : Option String)
    (connection_name : String) (env : SecretsEnv)
    (hres : ¬(connection_name = "default") ∨ ¬(defaultName = none)) :
    (∃ s, get_secrets defaultName connection_name env = Except.ok s)
      ∧ (env.tomlExists = false →
          get_secrets defaultName connection_name env = Except.ok [])
      ∧ (env.connections = none →
          get_secrets defaultName connection_name env = Except.ok [])
      ∧ (env.connections = some ConnectionsSectionValue.otherValue →
          get_secrets defaultName connection_name env = Except.ok [])
      ∧ (∀ entries,
          env.connections = some (ConnectionsSectionValue.attrDict entries) →
          ¬(connection_name = "default") →
          sectionFind entries connection_name = none →
          get_secrets defaultName connection_name env = Except.ok [])
      ∧ (∀ dn entries, defaultName = some dn → env.tomlExists = true →
          env.connections = some (ConnectionsSectionValue.attrDict entries) →
          get_secrets defaultName "default" env
            = Except.ok ((sectionFind entries dn).getD [])) := by
  have hname : ∃ name, (if connection_name = "default" then defaultName
      else some connection_name) = some name
      ∧ (¬(connection_name = "default") → name = connection_name) := by
    by_cases hd : connection_name = "default"
    · rw [if_pos hd]
      cases hdn : defaultName with
      | none =>
        rcases hres with h | h
        · exact absurd hd h
        · exact absurd hdn h
      | some dn => exact ⟨dn, rfl, fun h => absurd hd h⟩
    · rw [if_neg hd]
      exact ⟨connection_name, rfl, fun _ => rfl⟩
  obtain ⟨name, hname1, hname2⟩ := hname
  refine ⟨?_, ?_, ?_, ?_, ?_, ?_⟩
  · simp only [get_secrets, hname1]
    cases hs : (if env.tomlExists then env.connections else none) with
    | none => exact ⟨[], rfl⟩
    | some v =>
      cases v with
      | attrDict entries => exact ⟨_, rfl⟩
      | otherValue => exact ⟨[], rfl⟩
  · intro ht
    simp [get_secrets, hname1, ht]
  · intro hc
    simp [get_secrets, hname1, hc]
  · intro hc
    cases ht : env.tomlExists <;> simp [get_secrets, hname1, hc, ht]
  · intro entries hc hd hfind
    cases ht : env.tomlExists with
    | false => simp [get_secrets, hname1, ht]
    | true => simp [get_secrets, hname1, ht, hc, hname2 hd, hfind]
  · intro dn entries hdn ht hc
    simp [get_secrets, hdn, ht, hc]

/-- Witness for C7: a non-"default" name against an absent secrets file. -/
theorem get_secrets_missing_sections_empty_witness :
    get_secrets (some "snowpark") "conn" ⟨false, none⟩ = Except.ok [] :=
  (get_secrets_missing_sections_empty (some "snowpark") "conn" ⟨false, none⟩
      (Or.inl (by decide))).2.1 rfl

/-- C2: `save` followed by `get` with the same session id returns a
`SessionInfo` whose session identifier equals the saved one; its state
mapping agrees with the saved snapshot on every key the snapshot binds, and
on every other key it is exactly the freshly constructed session's default
state — snapshot entries are replayed one key at a time, never merged with or
clearing pre-existing state. -/
theorem save_then_get_roundtrip (st : RedisSessionStorage)
    (hu : st.uploaded_file_manager ≠ none)
    (hm : st.message_enqueued_callback ≠ none)
    (si : SessionInfo) (installation_id freshId : String)
    (defaultState : PyDict)
    (hnd : ((filtered_state si.session.session_state).map Prod.fst).Nodup) :
    ∃ si' : SessionInfo,
      RedisSessionStorage.get (RedisSessionStorage.save st installation_id si)
          installation_id freshId defaultState si.session.id
        = Except.ok (some si')
      ∧ si'.session.id = si.session.id
      ∧ si'.script_run_count = si.script_run_count
      ∧ (∀ k, containsKey (filtered_state si.session.session_state) k = true →
          dfind si'.session.session_state k
            = dfind (filtered_state si.session.session_state) k)
      ∧ (∀ k, containsKey (filtered_state si.session.session_state) k = false →
          dfind si'.session.session_state k = dfind defaultState k) := by
  have hsf : ∀ (s : RedisStore) (k : String) (v : SerializedSession),
      storeFind (storeSet s k v) k = some v := by
    intro s k v
    simp [storeFind, storeSet]
  refine ⟨⟨⟨si.session.id,
      ⟨si.session.session_data.main_script_path,
       si.session.session_data.command_line⟩,
      si.session.user_info,
      (filtered_state si.session.session_state).foldl
        (fun acc kv => dictInsert acc kv.1 kv.2) defaultState⟩,
      si.script_run_count⟩, ?_, rfl, rfl, ?_, ?_⟩
  · simp only [RedisSessionStorage.get, RedisSessionStorage.save, hsf,
      RedisSessionStorage._deserialize_session, AppSession.new,
      RedisSessionStorage._serialize_session]
    rw [if_neg hu, if_neg hm]
    rfl
  · intro k hk
    show dfind ((filtered_state si.session.session_state).foldl
        (fun acc kv => dictInsert acc kv.1 kv.2) defaultState) k
      = dfind (filtered_state si.session.session_state) k
    rw [dfind_foldl_dictInsert Prod.fst Prod.snd
        (filtered_state si.session.session_state) defaultState k]
    have hlmd := lastMatch_eq_dfind_of_nodup
        (filtered_state si.session.session_state) k hnd
    cases hlm : lastMatch Prod.fst (filtered_state si.session.session_state) k with
    | some x =>
      rw [hlm] at hlmd
      exact hlmd
    | none =>
      rw [hlm] at hlmd
      have hnone : dfind (filtered_state si.session.session_state) k = none :=
        hlmd.symm
      rw [dfind_eq_none_iff] at hnone
      rw [hk] at hnone
      cases hnone
  · intro k hk
    show dfind ((filtered_state si.session.session_state).foldl
        (fun acc kv => dictInsert acc kv.1 kv.2) defaultState) k
      = dfind defaultState k
    rw [dfind_foldl_dictInsert Prod.fst Prod.snd
        (filtered_state si.session.session_state) defaultState k]
    have hlmd := lastMatch_eq_dfind_of_nodup
        (filtered_state si.session.session_state) k hnd
    cases hlm : lastMatch Prod.fst (filtered_state si.session.session_state) k with
    | some x =>
      rw [hlm] at hlmd
      have hnone : dfind (filtered_state si.session.session_state) k = none :=
        (dfind_eq_none_iff _ _).mpr hk
      rw [hnone] at hlmd
      cases hlmd
    | none => rfl

/-- Witness for C2 at a concrete storage, session and default state. -/
theorem save_then_get_roundtrip_witness :
    ∃ si' : SessionInfo,
      RedisSessionStorage.get
          (RedisSessionStorage.save
            ((RedisSessionStorage.init.set_uploaded_file_manager
                ()).set_message_enqueued_callback ())
            "i" ⟨⟨"sid", ⟨"p", "c"⟩, "ui", [("x", "1")]⟩, 5⟩)
          "i" "f" [("y", "2"), ("x", "0")] "sid"
        = Except.ok (some si')
      ∧ si'.session.id = "sid"
      ∧ si'.script_run_count = 5
      ∧ (∀ k, containsKey (filtered_state [("x", "1")]) k = true →
          dfind si'.session.session_state k
            = dfind (filtered_state [("x", "1")]) k)
      ∧ (∀ k, containsKey (filtered_state [("x", "1")]) k = false →
          dfind si'.session.session_state k
            = dfind [("y", "2"), ("x", "0")] k) :=
  save_then_get_roundtrip
    ((RedisSessionStorage.init.set_uploaded_file_manager
        ()).set_message_enqueued_callback ())
    (by decide) (by decide) ⟨⟨"sid", ⟨"p", "c"⟩, "ui", [("x", "1")]⟩, 5⟩
    "i" "f" [("y", "2"), ("x", "0")] (by decide)
